import Mathlib

/-
Verification of the external lexical scanner in src/src/scanner.c.

The scanner is embedded shallowly:
* `Scanner` mirrors the C `Scanner` struct (bools and C ints, the latter as `Int`).
* `TSLexer` models the tree-sitter lexer interface used by the code: the full
  input as a list of character codes, the current read position (`pos`), the
  committed token end (`marked`, valid when `markedSet`), and the token start
  (`tokenStart`, moved past characters consumed by `skip`).  `lookahead` is the
  character at `pos`, with `0` as the end-of-input sentinel, exactly as the C
  code tests `lexer->lookahead != 0`.
* The C `while` loops are written with an explicit fuel parameter; every loop
  iteration in the C code consumes at least one input character, so the fuel
  `remFuel l = l.input.length + 1 - l.pos` supplied by the wrappers is never
  exhausted and the embedding computes exactly what the C loops compute.
* The main `tree_sitter_nix_external_scanner_scan` function is split into one
  Lean definition per sequential block of the C function; each block either
  returns a token or falls through to the next block with the (possibly
  advanced) lexer, mirroring the C control flow including speculative
  consumption that is not backed up.
-/

inductive TokenType where
  | STRING_START
  | STRING_CONTENT
  | STRING_END
  | INDENTED_STRING_START
  | INDENTED_STRING_CONTENT
  | INDENTED_STRING_END
  | INTERPOLATION_START
  | INTERPOLATION_END
  | ESCAPE_SEQUENCE
  | COMMENT
deriving DecidableEq

/-- The C `Scanner` struct: two `bool` flags and three `int` counters. -/
structure Scanner where
  in_string : Bool
  in_indented_string : Bool
  interpolation_depth : Int
  paren_depth : Int
  brace_depth : Int
deriving DecidableEq

/-- The all-zero state produced by `calloc` in
`tree_sitter_nix_external_scanner_create`. -/
def zeroScanner : Scanner := ⟨false, false, 0, 0, 0⟩

/-- The tree-sitter lexer as used by the scanner: full input, read position,
token start, and the committed token end set by `mark_end`. -/
structure TSLexer where
  input : List Nat
  pos : Nat
  tokenStart : Nat
  marked : Nat
  markedSet : Bool
deriving DecidableEq

/-- `lexer->lookahead`: the character at the current position, `0` at end of
input. -/
def lookahead (l : TSLexer) : Nat := (l.input.drop l.pos).headD 0

/-- `advance(lexer)`: consume one character into the current token. -/
def advance (l : TSLexer) : TSLexer := { l with pos := l.pos + 1 }

/-- `skip(lexer)`: consume one character as whitespace (excluded from the
token, so the token start moves past it). -/
def skip (l : TSLexer) : TSLexer :=
  { l with pos := l.pos + 1, tokenStart := l.pos + 1 }

/-- `lexer->mark_end(lexer)`: commit the token end at the current position. -/
def markEnd (l : TSLexer) : TSLexer := { l with marked := l.pos, markedSet := true }

/-- The end of the recognized token: the marked position if `mark_end` was
called, otherwise the position where the scan stopped. -/
def tokenEnd (l : TSLexer) : Nat := if l.markedSet then l.marked else l.pos

/-- A lexer freshly positioned at the start of `input`. -/
def initLexer (input : List Nat) : TSLexer := ⟨input, 0, 0, 0, false⟩

/-- The text of the recognized token: the committed span of the input. -/
def tokenText (l : TSLexer) : List Nat :=
  (l.input.take (tokenEnd l)).drop l.tokenStart

/-- Fuel bound for the C `while` loops: strictly more than the number of
characters left, so a loop that consumes one character per iteration never
runs out. -/
def remFuel (l : TSLexer) : Nat := l.input.length + 1 - l.pos

/-- Loop body of `scan_string_content` (scanner.c lines 40-60). -/
def stringContentLoop : Nat → Bool → TSLexer → Bool × TSLexer
  | 0, hc, l => (hc, l)
  | fuel+1, hc, l =>
    if lookahead l = 0 then (hc, l)
    else if lookahead l = 34 then (hc, l)
    else if lookahead l = 92 then (hc, l)
    else if lookahead l = 36 then
      if lookahead (advance l) = 123 then (hc, advance l)
      else stringContentLoop fuel true (markEnd (advance l))
    else stringContentLoop fuel true (markEnd (advance l))

/-- `scan_string_content` (scanner.c lines 36-62): `mark_end`, then the loop. -/
def scan_string_content (l : TSLexer) : Bool × TSLexer :=
  stringContentLoop (remFuel l) false (markEnd l)

/-- Loop body of `scan_indented_string_content` (scanner.c lines 69-95),
with the running count of consecutive quote characters. -/
def indentedContentLoop : Nat → Bool → Nat → TSLexer → Bool × TSLexer
  | 0, hc, _, l => (hc, l)
  | fuel+1, hc, qc, l =>
    if lookahead l = 0 then (hc, l)
    else if lookahead l = 39 then
      if qc + 1 = 2 then (hc, advance l)
      else indentedContentLoop fuel true (qc + 1) (markEnd (advance l))
    else if lookahead l = 36 then
      if lookahead (advance l) = 123 then (hc, advance l)
      else indentedContentLoop fuel true 0 (markEnd (advance l))
    else indentedContentLoop fuel true 0 (markEnd (advance l))

/-- `scan_indented_string_content` (scanner.c lines 64-97). -/
def scan_indented_string_content (l : TSLexer) : Bool × TSLexer :=
  indentedContentLoop (remFuel l) false 0 (markEnd l)

/-- The hex-digit test of scanner.c lines 118-120. -/
def isHexDigit (c : Nat) : Bool :=
  (48 ≤ c && c ≤ 57) || (97 ≤ c && c ≤ 102) || (65 ≤ c && c ≤ 70)

/-- `scan_escape_sequence` (scanner.c lines 99-130).  On failure the
characters consumed so far stay consumed (no backup), as in the C code. -/
def scan_escape_sequence (l : TSLexer) : Bool × TSLexer :=
  if lookahead l ≠ 92 then (false, l)
  else
    if lookahead (advance l) = 110 ∨ lookahead (advance l) = 114 ∨
       lookahead (advance l) = 116 ∨ lookahead (advance l) = 92 ∨
       lookahead (advance l) = 34 ∨ lookahead (advance l) = 39 ∨
       lookahead (advance l) = 36 then
      (true, advance (advance l))
    else if lookahead (advance l) = 120 then
      if isHexDigit (lookahead (advance (advance l))) then
        if isHexDigit (lookahead (advance (advance (advance l)))) then
          (true, advance (advance (advance (advance l))))
        else (false, advance (advance (advance l)))
      else (false, advance (advance l))
    else (false, advance l)

/-- Line-comment loop of `scan_comment` (scanner.c lines 135-137). -/
def lineCommentLoop : Nat → TSLexer → TSLexer
  | 0, l => l
  | fuel+1, l =>
    if lookahead l ≠ 0 ∧ lookahead l ≠ 10 then lineCommentLoop fuel (advance l)
    else l

/-- Block-comment loop of `scan_comment` (scanner.c lines 147-163), tracking
the nesting depth; returns `depth == 0` as the C code does. -/
def blockCommentLoop : Nat → Nat → TSLexer → Bool × TSLexer
  | 0, depth, l => (depth == 0, l)
  | fuel+1, depth, l =>
    if 0 < depth ∧ lookahead l ≠ 0 then
      if lookahead l = 47 then
        if lookahead (advance l) = 42 then
          blockCommentLoop fuel (depth + 1) (advance (advance l))
        else blockCommentLoop fuel depth (advance l)
      else if lookahead l = 42 then
        if lookahead (advance l) = 47 then
          blockCommentLoop fuel (depth - 1) (advance (advance l))
        else blockCommentLoop fuel depth (advance l)
      else blockCommentLoop fuel depth (advance l)
    else (depth == 0, l)

/-- `scan_comment` (scanner.c lines 132-169). -/
def scan_comment (l : TSLexer) : Bool × TSLexer :=
  if lookahead l = 35 then
    (true, lineCommentLoop (remFuel l) (advance l))
  else if lookahead l = 47 then
    if lookahead (advance l) = 42 then
      blockCommentLoop (remFuel l) 1 (advance (advance l))
    else (false, advance l)
  else (false, l)

/-- Truncation of a C `int` to one byte of the serialization buffer. -/
def intToByte (n : Int) : Nat := (n % 256).toNat

/-- A C `bool` written to one byte of the serialization buffer. -/
def boolToByte (b : Bool) : Nat := if b then 1 else 0

/-- `tree_sitter_nix_external_scanner_serialize` (scanner.c lines 180-188):
exactly five bytes in field order. -/
def serialize (s : Scanner) : List Nat :=
  [boolToByte s.in_string, boolToByte s.in_indented_string,
   intToByte s.interpolation_depth, intToByte s.paren_depth,
   intToByte s.brace_depth]

/-- `tree_sitter_nix_external_scanner_deserialize` (scanner.c lines 190-199):
restores the five fields when at least 5 bytes are given, otherwise does
nothing (the `if (length >= 5)` has no else branch). -/
def deserialize (s : Scanner) (buffer : List Nat) : Scanner :=
  if 5 ≤ buffer.length then
    { in_string := buffer.getD 0 0 != 0,
      in_indented_string := buffer.getD 1 0 != 0,
      interpolation_depth := (buffer.getD 2 0 : Int),
      paren_depth := (buffer.getD 3 0 : Int),
      brace_depth := (buffer.getD 4 0 : Int) }
  else s

/-- Outcome of one `tree_sitter_nix_external_scanner_scan` call: the produced
token (`none` when the C function returns `false`), the mutated scanner state,
and the final lexer. -/
structure ScanResult where
  result : Option TokenType
  scanner : Scanner
  lexer : TSLexer
deriving DecidableEq

/-- Interpolation-close tracking, scanner.c lines 309-326 (the last block of
the scan function). -/
def scanInterpEnd (s : Scanner) (valid : TokenType → Bool) (l : TSLexer) :
    ScanResult :=
  if 0 < s.interpolation_depth ∧ valid .INTERPOLATION_END = true then
    if lookahead l = 123 then
      ⟨none, { s with brace_depth := s.brace_depth + 1 }, advance l⟩
    else if lookahead l = 125 then
      if s.brace_depth - 1 = 0 then
        ⟨some .INTERPOLATION_END,
         { s with brace_depth := s.brace_depth - 1,
                  interpolation_depth := s.interpolation_depth - 1 },
         advance l⟩
      else ⟨none, { s with brace_depth := s.brace_depth - 1 }, advance l⟩
    else ⟨none, s, l⟩
  else ⟨none, s, l⟩

/-- Indented-string content check, scanner.c lines 301-305. -/
def indentedContentStep (s : Scanner) (valid : TokenType → Bool) (l : TSLexer) :
    ScanResult :=
  if valid .INDENTED_STRING_CONTENT = true then
    if (scan_indented_string_content l).1 = true then
      ⟨some .INDENTED_STRING_CONTENT, s, (scan_indented_string_content l).2⟩
    else scanInterpEnd s valid (scan_indented_string_content l).2
  else scanInterpEnd s valid l

/-- Interpolation-start check inside an indented string, scanner.c lines
289-298.  On a `$` not followed by `{` the `$` stays consumed. -/
def indentedInterpStep (s : Scanner) (valid : TokenType → Bool) (l : TSLexer) :
    ScanResult :=
  if valid .INTERPOLATION_START = true ∧ lookahead l = 36 then
    if lookahead (advance l) = 123 then
      ⟨some .INTERPOLATION_START,
       { s with interpolation_depth := s.interpolation_depth + 1,
                brace_depth := 1 },
       advance (advance l)⟩
    else indentedContentStep s valid (advance l)
  else indentedContentStep s valid l

/-- The `if (scanner->in_indented_string)` block, scanner.c lines 277-306. -/
def indentedStep (s : Scanner) (valid : TokenType → Bool) (l : TSLexer) :
    ScanResult :=
  if s.in_indented_string = true then
    if valid .INDENTED_STRING_END = true ∧ lookahead l = 39 then
      if lookahead (advance l) = 39 then
        ⟨some .INDENTED_STRING_END, { s with in_indented_string := false },
         advance (advance l)⟩
      else indentedInterpStep s valid (advance l)
    else indentedInterpStep s valid l
  else scanInterpEnd s valid l

/-- String-content check, scanner.c lines 269-273. -/
def stringContentStep (s : Scanner) (valid : TokenType → Bool) (l : TSLexer) :
    ScanResult :=
  if valid .STRING_CONTENT = true then
    if (scan_string_content l).1 = true then
      ⟨some .STRING_CONTENT, s, (scan_string_content l).2⟩
    else indentedStep s valid (scan_string_content l).2
  else indentedStep s valid l

/-- Escape-sequence check, scanner.c lines 263-267.  On failure the
characters consumed by `scan_escape_sequence` stay consumed. -/
def stringEscapeStep (s : Scanner) (valid : TokenType → Bool) (l : TSLexer) :
    ScanResult :=
  if valid .ESCAPE_SEQUENCE = true then
    if (scan_escape_sequence l).1 = true then
      ⟨some .ESCAPE_SEQUENCE, s, (scan_escape_sequence l).2⟩
    else stringContentStep s valid (scan_escape_sequence l).2
  else stringContentStep s valid l

/-- Interpolation-start check inside a plain string, scanner.c lines
251-261. -/
def stringInterpStep (s : Scanner) (valid : TokenType → Bool) (l : TSLexer) :
    ScanResult :=
  if valid .INTERPOLATION_START = true ∧ lookahead l = 36 then
    if lookahead (advance l) = 123 then
      ⟨some .INTERPOLATION_START,
       { s with interpolation_depth := s.interpolation_depth + 1,
                brace_depth := 1 },
       advance (advance l)⟩
    else stringEscapeStep s valid (advance l)
  else stringEscapeStep s valid l

/-- The `if (scanner->in_string)` block, scanner.c lines 242-274. -/
def stringStep (s : Scanner) (valid : TokenType → Bool) (l : TSLexer) :
    ScanResult :=
  if s.in_string = true then
    if valid .STRING_END = true ∧ lookahead l = 34 then
      ⟨some .STRING_END, { s with in_string := false }, advance l⟩
    else stringInterpStep s valid l
  else indentedStep s valid l

/-- String/indented-string entry, scanner.c lines 220-239.  A single `'` not
followed by a second `'` stays consumed and the scan falls through. -/
def entryStep (s : Scanner) (valid : TokenType → Bool) (l : TSLexer) :
    ScanResult :=
  if s.in_string = false ∧ s.in_indented_string = false then
    if valid .STRING_START = true ∧ lookahead l = 34 then
      ⟨some .STRING_START, { s with in_string := true }, advance l⟩
    else if valid .INDENTED_STRING_START = true ∧ lookahead l = 39 then
      if lookahead (advance l) = 39 then
        ⟨some .INDENTED_STRING_START, { s with in_indented_string := true },
         advance (advance l)⟩
      else stringStep s valid (advance l)
    else stringStep s valid l
  else stringStep s valid l

/-- Comment check, scanner.c lines 213-217: `scan_comment` runs only when the
comment token is admissible, and on failure its consumption persists. -/
def commentStep (s : Scanner) (valid : TokenType → Bool) (l : TSLexer) :
    ScanResult :=
  if valid .COMMENT = true then
    if (scan_comment l).1 = true then
      ⟨some .COMMENT, s, (scan_comment l).2⟩
    else entryStep s valid (scan_comment l).2
  else entryStep s valid l

/-- Whitespace loop, scanner.c lines 207-210. -/
def wsLoop : Nat → TSLexer → TSLexer
  | 0, l => l
  | fuel+1, l =>
    if lookahead l = 32 ∨ lookahead l = 9 ∨ lookahead l = 10 ∨ lookahead l = 13
    then wsLoop fuel (skip l)
    else l

/-- `tree_sitter_nix_external_scanner_scan` (scanner.c lines 201-329). -/
def scan (s : Scanner) (valid : TokenType → Bool) (l : TSLexer) : ScanResult :=
  commentStep s valid
    (if s.in_string = false ∧ s.in_indented_string = false
     then wsLoop (remFuel l) l else l)

/-- The admissible-kind set that allows every token kind. -/
def allValid : TokenType → Bool := fun _ => true

/-- Admissible-kind set containing only the interpolation-end token. -/
def onlyInterpEnd : TokenType → Bool := fun k => k == TokenType.INTERPOLATION_END

/-- States reachable from the zero-initialized scanner by scan calls, each
call taking an arbitrary input and an arbitrary admissible-kind set. -/
inductive Reachable : Scanner → Prop where
  | init : Reachable zeroScanner
  | step (s : Scanner) (valid : TokenType → Bool) (input : List Nat) :
      Reachable s → Reachable (scan s valid (initLexer input)).scanner

/-- The part of the claimed state invariant that actually holds: the two mode
flags are mutually exclusive and the interpolation depth is non-negative. -/
def ScannerInv (s : Scanner) : Prop :=
  ¬ (s.in_string = true ∧ s.in_indented_string = true) ∧
  0 ≤ s.interpolation_depth

/-- The properties claimed of a produced string-content token over the input
it was scanned from: the consumed span starts at the token start 0, is
non-empty, stays within the input, contains no double quote, no backslash and
no `${` pair, and is maximal (the character after the span, if any, is a stop
character: `"`, `\`, or the start of `${`). -/
def ContentTokenOK (input : List Nat) (l : TSLexer) : Prop :=
  l.tokenStart = 0 ∧ 0 < tokenEnd l ∧ tokenEnd l ≤ input.length ∧
  (∀ i, i < tokenEnd l →
    input.get? i ≠ some 34 ∧ input.get? i ≠ some 92 ∧
    (input.get? i = some 36 → input.get? (i + 1) ≠ some 123)) ∧
  (tokenEnd l = input.length ∨ input.get? (tokenEnd l) = some 34 ∨
   input.get? (tokenEnd l) = some 92 ∨
   (input.get? (tokenEnd l) = some 36 ∧
    input.get? (tokenEnd l + 1) = some 123))

/-
Concrete claim theorems: the C1 failing-input evaluation and the
counterexamples for the corrected claims.
-/

/-- C1: evaluation of the code at the failing input `''x''` (codes
`[39,39,120,39,39]`, body `x`, no double quote pair inside, no `${`).  The
first scan from the zero state with every kind admissible produces
indented-string-start consuming the opening `''`; the second scan produces an
indented-string-content token whose text is `x'` (codes `[120,39]`) — the
content loop commits the first quote of the closing `''` into the content
token — instead of the body `x`; the third scan, resuming at the lone
remaining `'`, produces no token at all and leaves the scanner stuck inside
the indented string, so indented-string-end is never emitted, contrary to the
claim. -/
theorem c1_indented_string_failing_input :
    (scan zeroScanner allValid (initLexer [39,39,120,39,39])).result =
      some TokenType.INDENTED_STRING_START ∧
    (scan zeroScanner allValid (initLexer [39,39,120,39,39])).scanner =
      ⟨false, true, 0, 0, 0⟩ ∧
    tokenEnd (scan zeroScanner allValid (initLexer [39,39,120,39,39])).lexer = 2 ∧
    (scan ⟨false, true, 0, 0, 0⟩ allValid (initLexer [120,39,39])).result =
      some TokenType.INDENTED_STRING_CONTENT ∧
    tokenText (scan ⟨false, true, 0, 0, 0⟩ allValid (initLexer [120,39,39])).lexer
      = [120, 39] ∧
    (scan ⟨false, true, 0, 0, 0⟩ allValid (initLexer [39])).result = none ∧
    (scan ⟨false, true, 0, 0, 0⟩ allValid (initLexer [39])).scanner.in_indented_string
      = true := by
  decide

/-- C2 counterexample: deserializing an empty buffer into a scanner that is
inside a string leaves it inside the string — the state is not reset to the
zero-initialized default, because the `if (length >= 5)` in
`tree_sitter_nix_external_scanner_deserialize` has no else branch. -/
theorem c2_counterexample :
    deserialize ⟨true, false, 0, 0, 0⟩ [] ≠ zeroScanner := by
  decide

/-- C2 (amended): given fewer than 5 bytes, deserialize leaves the scanner
state unchanged, whatever it was; in particular a freshly created
(zero-initialized) scanner stays at the zero default. -/
theorem c2_deserialize_short_buffer (s : Scanner) (buffer : List Nat)
    (h : buffer.length < 5) : deserialize s buffer = s := by
  unfold deserialize
  rw [if_neg]
  omega

/-- Witness for `c2_deserialize_short_buffer` at a concrete state and a
2-byte buffer. -/
theorem c2_deserialize_short_buffer_witness :
    deserialize ⟨true, false, 4, 0, 2⟩ [9, 9] = ⟨true, false, 4, 0, 2⟩ :=
  c2_deserialize_short_buffer ⟨true, false, 4, 0, 2⟩ [9, 9] (by decide)

/-- C8: serializing the state obtained by deserializing a 5-byte buffer with
in-range fields (booleans 0/1, counters fitting one byte) gives back exactly
the same 5 bytes in the order
`[in_string, in_indented_string, interpolation_depth, paren_depth,
brace_depth]`. -/
theorem c8_serialize_deserialize_round_trip (s : Scanner)
    (b0 b1 b2 b3 b4 : Nat)
    (h0 : b0 = 0 ∨ b0 = 1) (h1 : b1 = 0 ∨ b1 = 1)
    (h2 : b2 < 256) (h3 : b3 < 256) (h4 : b4 < 256) :
    serialize (deserialize s [b0, b1, b2, b3, b4]) = [b0, b1, b2, b3, b4] := by
  have e2 : (((b2 : Int)) % 256).toNat = b2 := by omega
  have e3 : (((b3 : Int)) % 256).toNat = b3 := by omega
  have e4 : (((b4 : Int)) % 256).toNat = b4 := by omega
  rcases h0 with h0 | h0 <;> rcases h1 with h1 | h1 <;>
    subst h0 <;> subst h1 <;>
    simp [deserialize, serialize, boolToByte, intToByte, List.getD, e2, e3, e4]

/-- Witness for `c8_serialize_deserialize_round_trip` at a concrete buffer. -/
theorem c8_serialize_deserialize_round_trip_witness :
    serialize (deserialize zeroScanner [1, 0, 3, 0, 200]) = [1, 0, 3, 0, 200] :=
  c8_serialize_deserialize_round_trip zeroScanner 1 0 3 0 200
    (by decide) (by decide) (by decide) (by decide) (by decide)

/-- C5 counterexample: inside a plain string, with escape-sequence and
string-content admissible, input `\z"` (codes `[92,122,34]`) produces a
string-content token whose text `[92,122]` contains a backslash (code 92):
the failed escape attempt leaves the consumed `\` inside the content token,
contradicting the claim that content text contains no backslash. -/
theorem c5_counterexample :
    (scan ⟨true, false, 0, 0, 0⟩ allValid (initLexer [92, 122, 34])).result =
      some TokenType.STRING_CONTENT ∧
    tokenText (scan ⟨true, false, 0, 0, 0⟩ allValid
      (initLexer [92, 122, 34])).lexer = [92, 122] ∧
    92 ∈ tokenText (scan ⟨true, false, 0, 0, 0⟩ allValid
      (initLexer [92, 122, 34])).lexer := by
  decide

/-- C6 counterexample: inside a plain string with every kind admissible,
input `$\n"` (codes `[36,92,110,34]`) produces an escape-sequence token that
consumes three characters, not two: the interpolation-start check consumed
the `$` speculatively and the escape token span includes it. -/
theorem c6_counterexample :
    (scan ⟨true, false, 0, 0, 0⟩ allValid (initLexer [36, 92, 110, 34])).result
      = some TokenType.ESCAPE_SEQUENCE ∧
    (scan ⟨true, false, 0, 0, 0⟩ allValid
      (initLexer [36, 92, 110, 34])).lexer.tokenStart = 0 ∧
    tokenEnd (scan ⟨true, false, 0, 0, 0⟩ allValid
      (initLexer [36, 92, 110, 34])).lexer = 3 := by
  decide

/-- C7 counterexample: in the zero (bare) state, with every token kind
admissible and input `${`, the scan produces no token and leaves
interpolation_depth at 0 — the interpolation-start checks only run inside a
plain or indented string, so the claim fails for the bare state. -/
theorem c7_counterexample :
    (scan zeroScanner allValid (initLexer [36, 123])).result = none ∧
    (scan zeroScanner allValid (initLexer [36, 123])).scanner.interpolation_depth
      = 0 := by
  decide

/-- C3 counterexample: in a state inside a plain string with
interpolation_depth = 1 and brace_depth = 1, with both string-content and
interpolation-end admissible, a scan call seeing `{` produces a
string-content token and leaves brace_depth at 1 — the string-content branch
claims the `{` before the interpolation brace tracking runs, contradicting
the claim that the `{` is consumed silently with brace_depth incremented. -/
theorem c3_counterexample :
    (scan ⟨true, false, 1, 0, 1⟩ allValid (initLexer [123])).result =
      some TokenType.STRING_CONTENT ∧
    (scan ⟨true, false, 1, 0, 1⟩ allValid (initLexer [123])).scanner.brace_depth
      = 1 := by
  decide

/-- C4 counterexample: the state invariant claimed for all reachable states
is false — from the zero state the five scan calls
`"` (string-start), `${` (interpolation-start), `${` again (which resets
brace_depth to 1 instead of stacking it), `}` (interpolation-end), and a
final `}` reach the state ⟨in_string := true, in_indented_string := false,
interpolation_depth := 1, paren_depth := 0, brace_depth := -1⟩, whose
brace_depth is negative. -/
theorem c4_counterexample :
    ¬ (∀ s : Scanner, Reachable s →
        ¬ (s.in_string = true ∧ s.in_indented_string = true) ∧
        0 ≤ s.interpolation_depth ∧ 0 ≤ s.brace_depth) := by
  intro hall
  have h1 : Reachable ⟨true, false, 0, 0, 0⟩ := by
    have h := Reachable.step zeroScanner allValid [34] Reachable.init
    have e : (scan zeroScanner allValid (initLexer [34])).scanner =
        ⟨true, false, 0, 0, 0⟩ := by decide
    rwa [e] at h
  have h2 : Reachable ⟨true, false, 1, 0, 1⟩ := by
    have h := Reachable.step ⟨true, false, 0, 0, 0⟩ allValid [36, 123] h1
    have e : (scan ⟨true, false, 0, 0, 0⟩ allValid (initLexer [36, 123])).scanner =
        ⟨true, false, 1, 0, 1⟩ := by decide
    rwa [e] at h
  have h3 : Reachable ⟨true, false, 2, 0, 1⟩ := by
    have h := Reachable.step ⟨true, false, 1, 0, 1⟩ allValid [36, 123] h2
    have e : (scan ⟨true, false, 1, 0, 1⟩ allValid (initLexer [36, 123])).scanner =
        ⟨true, false, 2, 0, 1⟩ := by decide
    rwa [e] at h
  have h4 : Reachable ⟨true, false, 1, 0, 0⟩ := by
    have h := Reachable.step ⟨true, false, 2, 0, 1⟩ onlyInterpEnd [125] h3
    have e : (scan ⟨true, false, 2, 0, 1⟩ onlyInterpEnd (initLexer [125])).scanner =
        ⟨true, false, 1, 0, 0⟩ := by decide
    rwa [e] at h
  have h5 : Reachable ⟨true, false, 1, 0, -1⟩ := by
    have h := Reachable.step ⟨true, false, 1, 0, 0⟩ onlyInterpEnd [125] h4
    have e : (scan ⟨true, false, 1, 0, 0⟩ onlyInterpEnd (initLexer [125])).scanner =
        ⟨true, false, 1, 0, -1⟩ := by decide
    rwa [e] at h
  have := (hall _ h5).2.2
  simp at this

theorem scanInterpEnd_inv (s : Scanner) (v : TokenType → Bool) (l : TSLexer)
    (h : ScannerInv s) : ScannerInv (scanInterpEnd s v l).scanner := by
  unfold scanInterpEnd
  split
  · rename_i hc
    split
    · exact ⟨h.1, h.2⟩
    · split
      · split
        · exact ⟨h.1, by show 0 ≤ s.interpolation_depth - 1; omega⟩
        · exact ⟨h.1, h.2⟩
      · exact h
  · exact h

theorem indentedContentStep_inv (s : Scanner) (v : TokenType → Bool)
    (l : TSLexer) (h : ScannerInv s) :
    ScannerInv (indentedContentStep s v l).scanner := by
  unfold indentedContentStep
  split
  · split
    · exact h
    · exact scanInterpEnd_inv _ _ _ h
  · exact scanInterpEnd_inv _ _ _ h

theorem indentedInterpStep_inv (s : Scanner) (v : TokenType → Bool)
    (l : TSLexer) (h : ScannerInv s) :
    ScannerInv (indentedInterpStep s v l).scanner := by
  unfold indentedInterpStep
  split
  · split
    · exact ⟨h.1, by show 0 ≤ s.interpolation_depth + 1; have := h.2; omega⟩
    · exact indentedContentStep_inv _ _ _ h
  · exact indentedContentStep_inv _ _ _ h

theorem indentedStep_inv (s : Scanner) (v : TokenType → Bool) (l : TSLexer)
    (h : ScannerInv s) : ScannerInv (indentedStep s v l).scanner := by
  unfold indentedStep
  split
  · split
    · split
      · exact ⟨by simp, h.2⟩
      · exact indentedInterpStep_inv _ _ _ h
    · exact indentedInterpStep_inv _ _ _ h
  · exact scanInterpEnd_inv _ _ _ h

theorem stringContentStep_inv (s : Scanner) (v : TokenType → Bool)
    (l : TSLexer) (h : ScannerInv s) :
    ScannerInv (stringContentStep s v l).scanner := by
  unfold stringContentStep
  split
  · split
    · exact h
    · exact indentedStep_inv _ _ _ h
  · exact indentedStep_inv _ _ _ h

theorem stringEscapeStep_inv (s : Scanner) (v : TokenType → Bool)
    (l : TSLexer) (h : ScannerInv s) :
    ScannerInv (stringEscapeStep s v l).scanner := by
  unfold stringEscapeStep
  split
  · split
    · exact h
    · exact stringContentStep_inv _ _ _ h
  · exact stringContentStep_inv _ _ _ h

theorem stringInterpStep_inv (s : Scanner) (v : TokenType → Bool) (l : TSLexer)
    (h : ScannerInv s) : ScannerInv (stringInterpStep s v l).scanner := by
  unfold stringInterpStep
  split
  · split
    · exact ⟨h.1, by show 0 ≤ s.interpolation_depth + 1; have := h.2; omega⟩
    · exact stringEscapeStep_inv _ _ _ h
  · exact stringEscapeStep_inv _ _ _ h

theorem stringStep_inv (s : Scanner) (v : TokenType → Bool) (l : TSLexer)
    (h : ScannerInv s) : ScannerInv (stringStep s v l).scanner := by
  unfold stringStep
  split
  · split
    · exact ⟨by simp, h.2⟩
    · exact stringInterpStep_inv _ _ _ h
  · exact indentedStep_inv _ _ _ h

theorem entryStep_inv (s : Scanner) (v : TokenType → Bool) (l : TSLexer)
    (h : ScannerInv s) : ScannerInv (entryStep s v l).scanner := by
  unfold entryStep
  split
  · rename_i hmode
    split
    · exact ⟨by simp [hmode.2], h.2⟩
    · split
      · split
        · exact ⟨by simp [hmode.1], h.2⟩
        · exact stringStep_inv _ _ _ h
      · exact stringStep_inv _ _ _ h
  · exact stringStep_inv _ _ _ h

theorem commentStep_inv (s : Scanner) (v : TokenType → Bool) (l : TSLexer)
    (h : ScannerInv s) : ScannerInv (commentStep s v l).scanner := by
  unfold commentStep
  split
  · split
    · exact h
    · exact entryStep_inv _ _ _ h
  · exact entryStep_inv _ _ _ h

/-- A scan call from a state satisfying the (amended) invariant leaves the
invariant intact. -/
theorem scan_inv (s : Scanner) (v : TokenType → Bool) (l : TSLexer)
    (h : ScannerInv s) : ScannerInv (scan s v l).scanner :=
  commentStep_inv _ _ _ h

/-- C4 (amended): in every scanner state reachable from the zero-initialized
state by any sequence of scan calls, the two mode flags in_string and
in_indented_string are never both true and interpolation_depth ≥ 0.  (The
claimed bound brace_depth ≥ 0 does not hold on reachable states, see the
counterexample.) -/
theorem c4_reachable_invariant (s : Scanner) (h : Reachable s) :
    ¬ (s.in_string = true ∧ s.in_indented_string = true) ∧
    0 ≤ s.interpolation_depth := by
  induction h with
  | init => exact ⟨by simp [zeroScanner], by simp [zeroScanner]⟩
  | step s v input _ ih => exact scan_inv s v _ ih

/-- Witness for `c4_reachable_invariant` at the zero state. -/
theorem c4_reachable_invariant_witness :
    ¬ (zeroScanner.in_string = true ∧ zeroScanner.in_indented_string = true) ∧
    0 ≤ zeroScanner.interpolation_depth :=
  c4_reachable_invariant zeroScanner Reachable.init

/-
C9: a produced token kind is always in the admissible set, proved stage by
stage through the scan function.
-/

theorem scanInterpEnd_valid (s : Scanner) (v : TokenType → Bool) (l : TSLexer)
    (k : TokenType) : (scanInterpEnd s v l).result = some k → v k = true := by
  unfold scanInterpEnd
  split
  · rename_i hc
    split
    · exact fun h => Option.noConfusion h
    · split
      · split
        · exact fun h => Option.some.inj h ▸ hc.2
        · exact fun h => Option.noConfusion h
      · exact fun h => Option.noConfusion h
  · exact fun h => Option.noConfusion h

theorem indentedContentStep_valid (s : Scanner) (v : TokenType → Bool)
    (l : TSLexer) (k : TokenType) :
    (indentedContentStep s v l).result = some k → v k = true := by
  unfold indentedContentStep
  split
  · rename_i hv
    split
    · exact fun h => Option.some.inj h ▸ hv
    · exact scanInterpEnd_valid _ _ _ _
  · exact scanInterpEnd_valid _ _ _ _

theorem indentedInterpStep_valid (s : Scanner) (v : TokenType → Bool)
    (l : TSLexer) (k : TokenType) :
    (indentedInterpStep s v l).result = some k → v k = true := by
  unfold indentedInterpStep
  split
  · rename_i hc
    split
    · exact fun h => Option.some.inj h ▸ hc.1
    · exact indentedContentStep_valid _ _ _ _
  · exact indentedContentStep_valid _ _ _ _

theorem indentedStep_valid (s : Scanner) (v : TokenType → Bool) (l : TSLexer)
    (k : TokenType) : (indentedStep s v l).result = some k → v k = true := by
  unfold indentedStep
  split
  · split
    · rename_i hc
      split
      · exact fun h => Option.some.inj h ▸ hc.1
      · exact indentedInterpStep_valid _ _ _ _
    · exact indentedInterpStep_valid _ _ _ _
  · exact scanInterpEnd_valid _ _ _ _

theorem stringContentStep_valid (s : Scanner) (v : TokenType → Bool)
    (l : TSLexer) (k : TokenType) :
    (stringContentStep s v l).result = some k → v k = true := by
  unfold stringContentStep
  split
  · rename_i hv
    split
    · exact fun h => Option.some.inj h ▸ hv
    · exact indentedStep_valid _ _ _ _
  · exact indentedStep_valid _ _ _ _

theorem stringEscapeStep_valid (s : Scanner) (v : TokenType → Bool)
    (l : TSLexer) (k : TokenType) :
    (stringEscapeStep s v l).result = some k → v k = true := by
  unfold stringEscapeStep
  split
  · rename_i hv
    split
    · exact fun h => Option.some.inj h ▸ hv
    · exact stringContentStep_valid _ _ _ _
  · exact stringContentStep_valid _ _ _ _

theorem stringInterpStep_valid (s : Scanner) (v : TokenType → Bool)
    (l : TSLexer) (k : TokenType) :
    (stringInterpStep s v l).result = some k → v k = true := by
  unfold stringInterpStep
  split
  · rename_i hc
    split
    · exact fun h => Option.some.inj h ▸ hc.1
    · exact stringEscapeStep_valid _ _ _ _
  · exact stringEscapeStep_valid _ _ _ _

theorem stringStep_valid (s : Scanner) (v : TokenType → Bool) (l : TSLexer)
    (k : TokenType) : (stringStep s v l).result = some k → v k = true := by
  unfold stringStep
  split
  · split
    · rename_i hc
      exact fun h => Option.some.inj h ▸ hc.1
    · exact stringInterpStep_valid _ _ _ _
  · exact indentedStep_valid _ _ _ _

theorem entryStep_valid (s : Scanner) (v : TokenType → Bool) (l : TSLexer)
    (k : TokenType) : (entryStep s v l).result = some k → v k = true := by
  unfold entryStep
  split
  · split
    · rename_i hc
      exact fun h => Option.some.inj h ▸ hc.1
    · split
      · rename_i hc2
        split
        · exact fun h => Option.some.inj h ▸ hc2.1
        · exact stringStep_valid _ _ _ _
      · exact stringStep_valid _ _ _ _
  · exact stringStep_valid _ _ _ _

theorem commentStep_valid (s : Scanner) (v : TokenType → Bool) (l : TSLexer)
    (k : TokenType) : (commentStep s v l).result = some k → v k = true := by
  unfold commentStep
  split
  · rename_i hv
    split
    · exact fun h => Option.some.inj h ▸ hv
    · exact entryStep_valid _ _ _ _
  · exact entryStep_valid _ _ _ _

/-- C9: for every scanner state, input and admissible-kind set, a token
produced by a scan call has a kind that is in the admissible set supplied for
that call. -/
theorem c9_result_admissible (s : Scanner) (v : TokenType → Bool) (l : TSLexer)
    (k : TokenType) (h : (scan s v l).result = some k) : v k = true :=
  commentStep_valid _ _ _ _ h

/-- Witness for `c9_result_admissible`: scanning `"` from the zero state with
every kind admissible produces string-start, whose kind is admissible. -/
theorem c9_result_admissible_witness : allValid TokenType.STRING_START = true :=
  c9_result_admissible zeroScanner allValid (initLexer [34])
    TokenType.STRING_START (by decide)

/-
C10: a scan call that produces no token leaves the two mode flags unchanged,
proved stage by stage.
-/

theorem scanInterpEnd_none_flags (s : Scanner) (v : TokenType → Bool)
    (l : TSLexer) : (scanInterpEnd s v l).result = none →
    (scanInterpEnd s v l).scanner.in_string = s.in_string ∧
    (scanInterpEnd s v l).scanner.in_indented_string = s.in_indented_string := by
  unfold scanInterpEnd
  split
  · split
    · exact fun _ => ⟨rfl, rfl⟩
    · split
      · split
        · exact fun h => Option.noConfusion h
        · exact fun _ => ⟨rfl, rfl⟩
      · exact fun _ => ⟨rfl, rfl⟩
  · exact fun _ => ⟨rfl, rfl⟩

theorem indentedContentStep_none_flags (s : Scanner) (v : TokenType → Bool)
    (l : TSLexer) : (indentedContentStep s v l).result = none →
    (indentedContentStep s v l).scanner.in_string = s.in_string ∧
    (indentedContentStep s v l).scanner.in_indented_string
      = s.in_indented_string := by
  unfold indentedContentStep
  split
  · split
    · exact fun h => Option.noConfusion h
    · exact scanInterpEnd_none_flags _ _ _
  · exact scanInterpEnd_none_flags _ _ _

theorem indentedInterpStep_none_flags (s : Scanner) (v : TokenType → Bool)
    (l : TSLexer) : (indentedInterpStep s v l).result = none →
    (indentedInterpStep s v l).scanner.in_string = s.in_string ∧
    (indentedInterpStep s v l).scanner.in_indented_string
      = s.in_indented_string := by
  unfold indentedInterpStep
  split
  · split
    · exact fun h => Option.noConfusion h
    · exact indentedContentStep_none_flags _ _ _
  · exact indentedContentStep_none_flags _ _ _

theorem indentedStep_none_flags (s : Scanner) (v : TokenType → Bool)
    (l : TSLexer) : (indentedStep s v l).result = none →
    (indentedStep s v l).scanner.in_string = s.in_string ∧
    (indentedStep s v l).scanner.in_indented_string = s.in_indented_string := by
  unfold indentedStep
  split
  · split
    · split
      · exact fun h => Option.noConfusion h
      · exact indentedInterpStep_none_flags _ _ _
    · exact indentedInterpStep_none_flags _ _ _
  · exact scanInterpEnd_none_flags _ _ _

theorem stringContentStep_none_flags (s : Scanner) (v : TokenType → Bool)
    (l : TSLexer) : (stringContentStep s v l).result = none →
    (stringContentStep s v l).scanner.in_string = s.in_string ∧
    (stringContentStep s v l).scanner.in_indented_string
      = s.in_indented_string := by
  unfold stringContentStep
  split
  · split
    · exact fun h => Option.noConfusion h
    · exact indentedStep_none_flags _ _ _
  · exact indentedStep_none_flags _ _ _

theorem stringEscapeStep_none_flags (s : Scanner) (v : TokenType → Bool)
    (l : TSLexer) : (stringEscapeStep s v l).result = none →
    (stringEscapeStep s v l).scanner.in_string = s.in_string ∧
    (stringEscapeStep s v l).scanner.in_indented_string
      = s.in_indented_string := by
  unfold stringEscapeStep
  split
  · split
    · exact fun h => Option.noConfusion h
    · exact stringContentStep_none_flags _ _ _
  · exact stringContentStep_none_flags _ _ _

theorem stringInterpStep_none_flags (s : Scanner) (v : TokenType → Bool)
    (l : TSLexer) : (stringInterpStep s v l).result = none →
    (stringInterpStep s v l).scanner.in_string = s.in_string ∧
    (stringInterpStep s v l).scanner.in_indented_string
      = s.in_indented_string := by
  unfold stringInterpStep
  split
  · split
    · exact fun h => Option.noConfusion h
    · exact stringEscapeStep_none_flags _ _ _
  · exact stringEscapeStep_none_flags _ _ _

theorem stringStep_none_flags (s : Scanner) (v : TokenType → Bool)
    (l : TSLexer) : (stringStep s v l).result = none →
    (stringStep s v l).scanner.in_string = s.in_string ∧
    (stringStep s v l).scanner.in_indented_string = s.in_indented_string := by
  unfold stringStep
  split
  · split
    · exact fun h => Option.noConfusion h
    · exact stringInterpStep_none_flags _ _ _
  · exact indentedStep_none_flags _ _ _

theorem entryStep_none_flags (s : Scanner) (v : TokenType → Bool)
    (l : TSLexer) : (entryStep s v l).result = none →
    (entryStep s v l).scanner.in_string = s.in_string ∧
    (entryStep s v l).scanner.in_indented_string = s.in_indented_string := by
  unfold entryStep
  split
  · split
    · exact fun h => Option.noConfusion h
    · split
      · split
        · exact fun h => Option.noConfusion h
        · exact stringStep_none_flags _ _ _
      · exact stringStep_none_flags _ _ _
  · exact stringStep_none_flags _ _ _

theorem commentStep_none_flags (s : Scanner) (v : TokenType → Bool)
    (l : TSLexer) : (commentStep s v l).result = none →
    (commentStep s v l).scanner.in_string = s.in_string ∧
    (commentStep s v l).scanner.in_indented_string = s.in_indented_string := by
  unfold commentStep
  split
  · split
    · exact fun h => Option.noConfusion h
    · exact entryStep_none_flags _ _ _
  · exact entryStep_none_flags _ _ _

/-- C10: if a scan call produces no token, the in_string and
in_indented_string mode flags are exactly what they were at call entry (the
depth counters may still have changed). -/
theorem c10_none_preserves_flags (s : Scanner) (v : TokenType → Bool)
    (l : TSLexer) (h : (scan s v l).result = none) :
    (scan s v l).scanner.in_string = s.in_string ∧
    (scan s v l).scanner.in_indented_string = s.in_indented_string :=
  commentStep_none_flags _ _ _ h

/-- Witness for `c10_none_preserves_flags`: a failed scan on `z` from the
zero state leaves both flags false. -/
theorem c10_none_preserves_flags_witness :
    (scan zeroScanner allValid (initLexer [122])).scanner.in_string
      = zeroScanner.in_string ∧
    (scan zeroScanner allValid (initLexer [122])).scanner.in_indented_string
      = zeroScanner.in_indented_string :=
  c10_none_preserves_flags zeroScanner allValid (initLexer [122]) (by decide)

/-- The whitespace loop does nothing when the next character is not
whitespace. -/
theorem wsLoop_id (fuel : Nat) (l : TSLexer)
    (h : ¬ (lookahead l = 32 ∨ lookahead l = 9 ∨ lookahead l = 10 ∨
            lookahead l = 13)) : wsLoop fuel l = l := by
  cases fuel with
  | zero => rfl
  | succ n => exact if_neg h

/-- `scan_comment` does nothing when the next character starts neither a line
comment nor a block comment. -/
theorem scan_comment_skip (l : TSLexer) (h35 : lookahead l ≠ 35)
    (h47 : lookahead l ≠ 47) : scan_comment l = (false, l) := by
  unfold scan_comment
  rw [if_neg h35, if_neg h47]

/-- `scan_escape_sequence` does nothing when the next character is not a
backslash. -/
theorem scan_escape_sequence_skip (l : TSLexer) (h : lookahead l ≠ 92) :
    scan_escape_sequence l = (false, l) := by
  unfold scan_escape_sequence
  rw [if_pos h]

/-- C7 (amended): when the scanner is inside a plain or indented string, the
next unread characters are `${`, and interpolation-start is admissible, the
scan call produces the interpolation-start token, consumes exactly the two
characters `${`, increments interpolation_depth and sets brace_depth to 1. -/
theorem c7_interpolation_start (s : Scanner) (v : TokenType → Bool)
    (rest : List Nat)
    (hmode : s.in_string = true ∨ s.in_indented_string = true)
    (hv : v TokenType.INTERPOLATION_START = true) :
    (scan s v (initLexer (36 :: 123 :: rest))).result =
      some TokenType.INTERPOLATION_START ∧
    (scan s v (initLexer (36 :: 123 :: rest))).scanner =
      { s with interpolation_depth := s.interpolation_depth + 1,
               brace_depth := 1 } ∧
    tokenEnd (scan s v (initLexer (36 :: 123 :: rest))).lexer = 2 ∧
    (scan s v (initLexer (36 :: 123 :: rest))).lexer.tokenStart = 0 := by
  have h36 : lookahead (initLexer (36 :: 123 :: rest)) = 36 := rfl
  have h123 : lookahead (advance (initLexer (36 :: 123 :: rest))) = 123 := rfl
  have hcom : scan_comment (initLexer (36 :: 123 :: rest)) =
      (false, initLexer (36 :: 123 :: rest)) :=
    scan_comment_skip _ (by rw [h36]; decide) (by rw [h36]; decide)
  cases hs : s.in_string with
  | true =>
    have step1 : scan s v (initLexer (36 :: 123 :: rest)) =
        ⟨some TokenType.INTERPOLATION_START,
         { s with interpolation_depth := s.interpolation_depth + 1,
                  brace_depth := 1 },
         advance (advance (initLexer (36 :: 123 :: rest)))⟩ := by
      simp [scan, commentStep, entryStep, stringStep, stringInterpStep, hcom,
        hs, hv, h36, h123]
    rw [step1]
    exact ⟨rfl, by rw [hs], rfl, rfl⟩
  | false =>
    have hi : s.in_indented_string = true := by
      rcases hmode with h | h
      · rw [hs] at h; exact absurd h (by decide)
      · exact h
    have step1 : scan s v (initLexer (36 :: 123 :: rest)) =
        ⟨some TokenType.INTERPOLATION_START,
         { s with interpolation_depth := s.interpolation_depth + 1,
                  brace_depth := 1 },
         advance (advance (initLexer (36 :: 123 :: rest)))⟩ := by
      simp [scan, commentStep, entryStep, stringStep, indentedStep,
        indentedInterpStep, hcom, hs, hi, hv, h36, h123]
    rw [step1]
    exact ⟨rfl, by rw [hs], rfl, rfl⟩

/-- Witness for `c7_interpolation_start` inside a plain string on input
`${a`. -/
theorem c7_interpolation_start_witness :
    (scan ⟨true, false, 0, 0, 0⟩ allValid (initLexer (36 :: 123 :: [97]))).result
      = some TokenType.INTERPOLATION_START ∧
    (scan ⟨true, false, 0, 0, 0⟩ allValid (initLexer (36 :: 123 :: [97]))).scanner
      = { (⟨true, false, 0, 0, 0⟩ : Scanner) with
            interpolation_depth := (0 : Int) + 1, brace_depth := 1 } ∧
    tokenEnd (scan ⟨true, false, 0, 0, 0⟩ allValid
      (initLexer (36 :: 123 :: [97]))).lexer = 2 ∧
    (scan ⟨true, false, 0, 0, 0⟩ allValid
      (initLexer (36 :: 123 :: [97]))).lexer.tokenStart = 0 :=
  c7_interpolation_start ⟨true, false, 0, 0, 0⟩ allValid [97]
    (Or.inl rfl) (by decide)

/-- When the next character triggers none of the earlier checks (not
whitespace, not a comment or string delimiter, not `$` or `\`), and the
content tokens that could otherwise claim it are not admissible, the whole
scan call reduces to the interpolation-close tracking block. -/
theorem scan_passthrough (s : Scanner) (v : TokenType → Bool) (l : TSLexer)
    (h35 : lookahead l ≠ 35) (h47 : lookahead l ≠ 47)
    (h34 : lookahead l ≠ 34) (h39 : lookahead l ≠ 39)
    (h36 : lookahead l ≠ 36) (h92 : lookahead l ≠ 92)
    (h32 : lookahead l ≠ 32) (h9 : lookahead l ≠ 9)
    (h10 : lookahead l ≠ 10) (h13 : lookahead l ≠ 13)
    (hsc : s.in_string = true → v TokenType.STRING_CONTENT = false)
    (hic : s.in_indented_string = true →
      v TokenType.INDENTED_STRING_CONTENT = false) :
    scan s v l = scanInterpEnd s v l := by
  have hws : wsLoop (remFuel l) l = l :=
    wsLoop_id _ _ (by rintro (h | h | h | h)
                      exacts [h32 h, h9 h, h10 h, h13 h])
  have hcom : scan_comment l = (false, l) := scan_comment_skip _ h35 h47
  have hesc : scan_escape_sequence l = (false, l) :=
    scan_escape_sequence_skip _ h92
  cases hs : s.in_string with
  | true =>
    have hsc' := hsc hs
    cases hi : s.in_indented_string with
    | true =>
      have hic' := hic hi
      simp [scan, commentStep, entryStep, stringStep, stringInterpStep,
        stringEscapeStep, stringContentStep, indentedStep, indentedInterpStep,
        indentedContentStep, hws, hcom, hesc, hs, hi, hsc', hic', h34, h36,
        h39]
    | false =>
      simp [scan, commentStep, entryStep, stringStep, stringInterpStep,
        stringEscapeStep, stringContentStep, indentedStep, hws, hcom, hesc,
        hs, hi, hsc', h34, h36, h39]
  | false =>
    cases hi : s.in_indented_string with
    | true =>
      have hic' := hic hi
      simp [scan, commentStep, entryStep, stringStep, indentedStep,
        indentedInterpStep, indentedContentStep, hws, hcom, hs, hi, hic',
        h34, h36, h39]
    | false =>
      simp [scan, commentStep, entryStep, stringStep, indentedStep, hws,
        hcom, hs, hi, h34, h36, h39]

/-- C3 (amended): whenever interpolation_depth > 0 and interpolation-end is
admissible, and no string branch can claim the character (the scanner is
outside any string, or the corresponding string-content kind is not
admissible), a scan call seeing `{` increments brace_depth, consumes that one
character and produces no token; a scan call seeing `}` decrements
brace_depth, and exactly when the decrement brings brace_depth to 0 it
consumes the `}`, decrements interpolation_depth and produces
interpolation-end, while a `}` whose decrement leaves brace_depth nonzero is
consumed silently with no token. -/
theorem c3_brace_tracking (s : Scanner) (v : TokenType → Bool)
    (rest rest' : List Nat)
    (hd : 0 < s.interpolation_depth)
    (hv : v TokenType.INTERPOLATION_END = true)
    (hsc : s.in_string = true → v TokenType.STRING_CONTENT = false)
    (hic : s.in_indented_string = true →
      v TokenType.INDENTED_STRING_CONTENT = false) :
    ((scan s v (initLexer (123 :: rest))).result = none ∧
     (scan s v (initLexer (123 :: rest))).scanner =
       { s with brace_depth := s.brace_depth + 1 } ∧
     (scan s v (initLexer (123 :: rest))).lexer.pos = 1) ∧
    (s.brace_depth = 1 →
     (scan s v (initLexer (125 :: rest'))).result =
       some TokenType.INTERPOLATION_END ∧
     (scan s v (initLexer (125 :: rest'))).scanner =
       { s with brace_depth := 0,
                interpolation_depth := s.interpolation_depth - 1 } ∧
     tokenEnd (scan s v (initLexer (125 :: rest'))).lexer = 1 ∧
     (scan s v (initLexer (125 :: rest'))).lexer.tokenStart = 0) ∧
    (s.brace_depth ≠ 1 →
     (scan s v (initLexer (125 :: rest'))).result = none ∧
     (scan s v (initLexer (125 :: rest'))).scanner =
       { s with brace_depth := s.brace_depth - 1 } ∧
     (scan s v (initLexer (125 :: rest'))).lexer.pos = 1) := by
  have h123 : lookahead (initLexer (123 :: rest)) = 123 := rfl
  have h125 : lookahead (initLexer (125 :: rest')) = 125 := rfl
  have hL : scan s v (initLexer (123 :: rest)) =
      scanInterpEnd s v (initLexer (123 :: rest)) :=
    scan_passthrough s v _ (by rw [h123]; decide) (by rw [h123]; decide)
      (by rw [h123]; decide) (by rw [h123]; decide) (by rw [h123]; decide)
      (by rw [h123]; decide) (by rw [h123]; decide) (by rw [h123]; decide)
      (by rw [h123]; decide) (by rw [h123]; decide) hsc hic
  have hR : scan s v (initLexer (125 :: rest')) =
      scanInterpEnd s v (initLexer (125 :: rest')) :=
    scan_passthrough s v _ (by rw [h125]; decide) (by rw [h125]; decide)
      (by rw [h125]; decide) (by rw [h125]; decide) (by rw [h125]; decide)
      (by rw [h125]; decide) (by rw [h125]; decide) (by rw [h125]; decide)
      (by rw [h125]; decide) (by rw [h125]; decide) hsc hic
  refine ⟨?_, ?_, ?_⟩
  · rw [hL]
    have e : scanInterpEnd s v (initLexer (123 :: rest)) =
        ⟨none, { s with brace_depth := s.brace_depth + 1 },
         advance (initLexer (123 :: rest))⟩ := by
      simp [scanInterpEnd, hd, hv, h123]
    rw [e]
    exact ⟨rfl, rfl, rfl⟩
  · intro hb
    rw [hR]
    have hb0 : s.brace_depth - 1 = 0 := by omega
    have e : scanInterpEnd s v (initLexer (125 :: rest')) =
        ⟨some TokenType.INTERPOLATION_END,
         { s with brace_depth := s.brace_depth - 1,
                  interpolation_depth := s.interpolation_depth - 1 },
         advance (initLexer (125 :: rest'))⟩ := by
      simp [scanInterpEnd, hd, hv, h125, hb0]
    rw [e]
    exact ⟨rfl, by rw [hb0], rfl, rfl⟩
  · intro hb
    rw [hR]
    have hb0 : ¬ (s.brace_depth - 1 = 0) := by omega
    have e : scanInterpEnd s v (initLexer (125 :: rest')) =
        ⟨none, { s with brace_depth := s.brace_depth - 1 },
         advance (initLexer (125 :: rest'))⟩ := by
      simp [scanInterpEnd, hd, hv, h125, hb0]
    rw [e]
    exact ⟨rfl, rfl, rfl⟩

/-- Witness for `c3_brace_tracking` at a concrete bare state with
interpolation_depth = 1, brace_depth = 1, and only interpolation-end
admissible. -/
theorem c3_brace_tracking_witness :
    (((scan ⟨false, false, 1, 0, 1⟩ onlyInterpEnd (initLexer [123])).result
        = none ∧
      (scan ⟨false, false, 1, 0, 1⟩ onlyInterpEnd (initLexer [123])).scanner =
        { (⟨false, false, 1, 0, 1⟩ : Scanner) with
            brace_depth := (1 : Int) + 1 } ∧
      (scan ⟨false, false, 1, 0, 1⟩ onlyInterpEnd (initLexer [123])).lexer.pos
        = 1) ∧
     ((⟨false, false, 1, 0, 1⟩ : Scanner).brace_depth = 1 →
      (scan ⟨false, false, 1, 0, 1⟩ onlyInterpEnd (initLexer [125])).result =
        some TokenType.INTERPOLATION_END ∧
      (scan ⟨false, false, 1, 0, 1⟩ onlyInterpEnd (initLexer [125])).scanner =
        { (⟨false, false, 1, 0, 1⟩ : Scanner) with
            brace_depth := 0, interpolation_depth := (1 : Int) - 1 } ∧
      tokenEnd (scan ⟨false, false, 1, 0, 1⟩ onlyInterpEnd
        (initLexer [125])).lexer = 1 ∧
      (scan ⟨false, false, 1, 0, 1⟩ onlyInterpEnd
        (initLexer [125])).lexer.tokenStart = 0) ∧
     ((⟨false, false, 1, 0, 1⟩ : Scanner).brace_depth ≠ 1 →
      (scan ⟨false, false, 1, 0, 1⟩ onlyInterpEnd (initLexer [125])).result
        = none ∧
      (scan ⟨false, false, 1, 0, 1⟩ onlyInterpEnd (initLexer [125])).scanner =
        { (⟨false, false, 1, 0, 1⟩ : Scanner) with
            brace_depth := (1 : Int) - 1 } ∧
      (scan ⟨false, false, 1, 0, 1⟩ onlyInterpEnd (initLexer [125])).lexer.pos
        = 1)) :=
  c3_brace_tracking ⟨false, false, 1, 0, 1⟩ onlyInterpEnd [] []
    (by decide) (by decide) (fun h => by exact absurd h (by decide))
    (fun h => by exact absurd h (by decide))

/-
Which token kinds each trailing stage of the scan can produce: used to rule
out escape-sequence and string-content results from the later fall-through
stages.
-/

theorem scanInterpEnd_ne (s : Scanner) (v : TokenType → Bool) (l : TSLexer)
    (k : TokenType) (hk : k ≠ TokenType.INTERPOLATION_END) :
    (scanInterpEnd s v l).result ≠ some k := by
  unfold scanInterpEnd
  split
  · split
    · exact fun h => Option.noConfusion h
    · split
      · split
        · exact fun h => hk (Option.some.inj h).symm
        · exact fun h => Option.noConfusion h
      · exact fun h => Option.noConfusion h
  · exact fun h => Option.noConfusion h

theorem indentedContentStep_ne (s : Scanner) (v : TokenType → Bool)
    (l : TSLexer) (k : TokenType)
    (h1 : k ≠ TokenType.INDENTED_STRING_CONTENT)
    (h2 : k ≠ TokenType.INTERPOLATION_END) :
    (indentedContentStep s v l).result ≠ some k := by
  unfold indentedContentStep
  split
  · split
    · exact fun h => h1 (Option.some.inj h).symm
    · exact scanInterpEnd_ne _ _ _ _ h2
  · exact scanInterpEnd_ne _ _ _ _ h2

theorem indentedInterpStep_ne (s : Scanner) (v : TokenType → Bool)
    (l : TSLexer) (k : TokenType)
    (h0 : k ≠ TokenType.INTERPOLATION_START)
    (h1 : k ≠ TokenType.INDENTED_STRING_CONTENT)
    (h2 : k ≠ TokenType.INTERPOLATION_END) :
    (indentedInterpStep s v l).result ≠ some k := by
  unfold indentedInterpStep
  split
  · split
    · exact fun h => h0 (Option.some.inj h).symm
    · exact indentedContentStep_ne _ _ _ _ h1 h2
  · exact indentedContentStep_ne _ _ _ _ h1 h2

theorem indentedStep_ne (s : Scanner) (v : TokenType → Bool) (l : TSLexer)
    (k : TokenType)
    (hE : k ≠ TokenType.INDENTED_STRING_END)
    (h0 : k ≠ TokenType.INTERPOLATION_START)
    (h1 : k ≠ TokenType.INDENTED_STRING_CONTENT)
    (h2 : k ≠ TokenType.INTERPOLATION_END) :
    (indentedStep s v l).result ≠ some k := by
  unfold indentedStep
  split
  · split
    · split
      · exact fun h => hE (Option.some.inj h).symm
      · exact indentedInterpStep_ne _ _ _ _ h0 h1 h2
    · exact indentedInterpStep_ne _ _ _ _ h0 h1 h2
  · exact scanInterpEnd_ne _ _ _ _ h2

theorem stringContentStep_ne (s : Scanner) (v : TokenType → Bool) (l : TSLexer)
    (k : TokenType)
    (hC : k ≠ TokenType.STRING_CONTENT)
    (hE : k ≠ TokenType.INDENTED_STRING_END)
    (h0 : k ≠ TokenType.INTERPOLATION_START)
    (h1 : k ≠ TokenType.INDENTED_STRING_CONTENT)
    (h2 : k ≠ TokenType.INTERPOLATION_END) :
    (stringContentStep s v l).result ≠ some k := by
  unfold stringContentStep
  split
  · split
    · exact fun h => hC (Option.some.inj h).symm
    · exact indentedStep_ne _ _ _ _ hE h0 h1 h2
  · exact indentedStep_ne _ _ _ _ hE h0 h1 h2

/-- The content stage and everything after it never produce an
escape-sequence token. -/
theorem stringContentStep_ne_escape (s : Scanner) (v : TokenType → Bool)
    (l : TSLexer) :
    (stringContentStep s v l).result ≠ some TokenType.ESCAPE_SEQUENCE :=
  stringContentStep_ne s v l TokenType.ESCAPE_SEQUENCE
    (by decide) (by decide) (by decide) (by decide) (by decide)

/-- C6 (amended): when the scanner is inside a plain string and the first
unread character of the call is a backslash, a scan call that produces an
escape-sequence token consumes exactly two characters, the second being one
of `n r t \ " ' $`, or exactly four characters of the form `\x` plus two hex
digits; in particular a backslash followed by anything else never yields an
escape-sequence token.  (When an earlier check consumed a speculative prefix
— a `$` not followed by `{` — the escape token additionally contains that
prefix, see the counterexample.) -/
theorem c6_escape_consumption (s : Scanner) (v : TokenType → Bool)
    (tail : List Nat) (hs : s.in_string = true) :
    (scan s v (initLexer (92 :: tail))).result = some TokenType.ESCAPE_SEQUENCE →
    (scan s v (initLexer (92 :: tail))).lexer.tokenStart = 0 ∧
    ((tokenEnd (scan s v (initLexer (92 :: tail))).lexer = 2 ∧
      ∃ c, tail.get? 0 = some c ∧
        (c = 110 ∨ c = 114 ∨ c = 116 ∨ c = 92 ∨ c = 34 ∨ c = 39 ∨ c = 36)) ∨
     (tokenEnd (scan s v (initLexer (92 :: tail))).lexer = 4 ∧
      tail.get? 0 = some 120 ∧
      ∃ d1 d2, tail.get? 1 = some d1 ∧ tail.get? 2 = some d2 ∧
        isHexDigit d1 = true ∧ isHexDigit d2 = true)) := by
  intro h
  have hla : lookahead (initLexer (92 :: tail)) = 92 := rfl
  have hcom : scan_comment (initLexer (92 :: tail)) =
      (false, initLexer (92 :: tail)) :=
    scan_comment_skip _ (by rw [hla]; decide) (by rw [hla]; decide)
  have hred : scan s v (initLexer (92 :: tail)) =
      stringEscapeStep s v (initLexer (92 :: tail)) := by
    simp [scan, commentStep, entryStep, stringStep, stringInterpStep, hcom,
      hs, hla]
  rw [hred] at h ⊢
  by_cases hve : v TokenType.ESCAPE_SEQUENCE = true
  · cases tail with
    | nil =>
      have he : scan_escape_sequence (initLexer [92]) =
          (false, advance (initLexer [92])) := by decide
      have hstep : stringEscapeStep s v (initLexer [92]) =
          stringContentStep s v (advance (initLexer [92])) := by
        simp [stringEscapeStep, hve, he]
      rw [hstep] at h
      exact absurd h (stringContentStep_ne_escape _ _ _)
    | cons c t2 =>
      have hlc : lookahead (advance (initLexer (92 :: c :: t2))) = c := rfl
      by_cases hsimple : c = 110 ∨ c = 114 ∨ c = 116 ∨ c = 92 ∨ c = 34 ∨
          c = 39 ∨ c = 36
      · have he : scan_escape_sequence (initLexer (92 :: c :: t2)) =
            (true, advance (advance (initLexer (92 :: c :: t2)))) := by
          unfold scan_escape_sequence
          rw [if_neg (by rw [hla]; decide), if_pos (by rw [hlc]; exact hsimple)]
        have hstep : stringEscapeStep s v (initLexer (92 :: c :: t2)) =
            ⟨some TokenType.ESCAPE_SEQUENCE, s,
             advance (advance (initLexer (92 :: c :: t2)))⟩ := by
          simp [stringEscapeStep, hve, he]
        rw [hstep]
        exact ⟨rfl, Or.inl ⟨rfl, c, rfl, hsimple⟩⟩
      · by_cases hx : c = 120
        · subst hx
          cases t2 with
          | nil =>
            have he : scan_escape_sequence (initLexer [92, 120]) =
                (false, advance (advance (initLexer [92, 120]))) := by decide
            have hstep : stringEscapeStep s v (initLexer [92, 120]) =
                stringContentStep s v
                  (advance (advance (initLexer [92, 120]))) := by
              simp [stringEscapeStep, hve, he]
            rw [hstep] at h
            exact absurd h (stringContentStep_ne_escape _ _ _)
          | cons d1 t3 =>
            have hld1 : lookahead (advance (advance
                (initLexer (92 :: 120 :: d1 :: t3)))) = d1 := rfl
            by_cases hd1 : isHexDigit d1 = true
            · cases t3 with
              | nil =>
                have hld3 : lookahead (advance (advance (advance
                    (initLexer [92, 120, d1])))) = 0 := rfl
                have he : scan_escape_sequence (initLexer [92, 120, d1]) =
                    (false, advance (advance (advance
                      (initLexer [92, 120, d1])))) := by
                  unfold scan_escape_sequence
                  rw [if_neg (by rw [hla]; decide)]
                  rw [if_neg (by rw [hlc]; decide)]
                  rw [if_pos (by rw [hlc])]
                  rw [if_pos (by rw [hld1]; exact hd1)]
                  rw [if_neg (by rw [hld3]; decide)]
                have hstep : stringEscapeStep s v (initLexer [92, 120, d1]) =
                    stringContentStep s v (advance (advance (advance
                      (initLexer [92, 120, d1])))) := by
                  simp [stringEscapeStep, hve, he]
                rw [hstep] at h
                exact absurd h (stringContentStep_ne_escape _ _ _)
              | cons d2 t4 =>
                have hld2 : lookahead (advance (advance (advance
                    (initLexer (92 :: 120 :: d1 :: d2 :: t4))))) = d2 := rfl
                by_cases hd2 : isHexDigit d2 = true
                · have he : scan_escape_sequence
                      (initLexer (92 :: 120 :: d1 :: d2 :: t4)) =
                      (true, advance (advance (advance (advance
                        (initLexer (92 :: 120 :: d1 :: d2 :: t4)))))) := by
                    unfold scan_escape_sequence
                    rw [if_neg (by rw [hla]; decide)]
                    rw [if_neg (by rw [hlc]; decide)]
                    rw [if_pos (by rw [hlc])]
                    rw [if_pos (by rw [hld1]; exact hd1)]
                    rw [if_pos (by rw [hld2]; exact hd2)]
                  have hstep : stringEscapeStep s v
                      (initLexer (92 :: 120 :: d1 :: d2 :: t4)) =
                      ⟨some TokenType.ESCAPE_SEQUENCE, s,
                       advance (advance (advance (advance
                         (initLexer (92 :: 120 :: d1 :: d2 :: t4)))))⟩ := by
                    simp [stringEscapeStep, hve, he]
                  rw [hstep]
                  exact ⟨rfl, Or.inr ⟨rfl, rfl, d1, d2, rfl, rfl, hd1, hd2⟩⟩
                · have he : scan_escape_sequence
                      (initLexer (92 :: 120 :: d1 :: d2 :: t4)) =
                      (false, advance (advance (advance
                        (initLexer (92 :: 120 :: d1 :: d2 :: t4))))) := by
                    unfold scan_escape_sequence
                    rw [if_neg (by rw [hla]; decide)]
                    rw [if_neg (by rw [hlc]; decide)]
                    rw [if_pos (by rw [hlc])]
                    rw [if_pos (by rw [hld1]; exact hd1)]
                    rw [if_neg (by rw [hld2]; exact hd2)]
                  have hstep : stringEscapeStep s v
                      (initLexer (92 :: 120 :: d1 :: d2 :: t4)) =
                      stringContentStep s v (advance (advance (advance
                        (initLexer (92 :: 120 :: d1 :: d2 :: t4))))) := by
                    simp [stringEscapeStep, hve, he]
                  rw [hstep] at h
                  exact absurd h (stringContentStep_ne_escape _ _ _)
            · have he : scan_escape_sequence
                  (initLexer (92 :: 120 :: d1 :: t3)) =
                  (false, advance (advance
                    (initLexer (92 :: 120 :: d1 :: t3)))) := by
                unfold scan_escape_sequence
                rw [if_neg (by rw [hla]; decide)]
                rw [if_neg (by rw [hlc]; decide)]
                rw [if_pos (by rw [hlc])]
                rw [if_neg (by rw [hld1]; exact hd1)]
              have hstep : stringEscapeStep s v
                  (initLexer (92 :: 120 :: d1 :: t3)) =
                  stringContentStep s v (advance (advance
                    (initLexer (92 :: 120 :: d1 :: t3)))) := by
                simp [stringEscapeStep, hve, he]
              rw [hstep] at h
              exact absurd h (stringContentStep_ne_escape _ _ _)
        · have he : scan_escape_sequence (initLexer (92 :: c :: t2)) =
              (false, advance (initLexer (92 :: c :: t2))) := by
            unfold scan_escape_sequence
            rw [if_neg (by rw [hla]; decide)]
            rw [if_neg (by rw [hlc]; exact hsimple)]
            rw [if_neg (by rw [hlc]; exact hx)]
          have hstep : stringEscapeStep s v (initLexer (92 :: c :: t2)) =
              stringContentStep s v (advance (initLexer (92 :: c :: t2))) := by
            simp [stringEscapeStep, hve, he]
          rw [hstep] at h
          exact absurd h (stringContentStep_ne_escape _ _ _)
  · have hstep : stringEscapeStep s v (initLexer (92 :: tail)) =
        stringContentStep s v (initLexer (92 :: tail)) := by
      simp [stringEscapeStep, hve]
    rw [hstep] at h
    exact absurd h (stringContentStep_ne_escape _ _ _)

/-- Witness for `c6_escape_consumption`: inside a plain string, `\n"` with
every kind admissible produces an escape token that consumes exactly two
characters. -/
theorem c6_escape_consumption_witness :
    (scan ⟨true, false, 0, 0, 0⟩ allValid
      (initLexer (92 :: [110, 34]))).lexer.tokenStart = 0 ∧
    ((tokenEnd (scan ⟨true, false, 0, 0, 0⟩ allValid
        (initLexer (92 :: [110, 34]))).lexer = 2 ∧
      ∃ c, [110, 34].get? 0 = some c ∧
        (c = 110 ∨ c = 114 ∨ c = 116 ∨ c = 92 ∨ c = 34 ∨ c = 39 ∨ c = 36)) ∨
     (tokenEnd (scan ⟨true, false, 0, 0, 0⟩ allValid
        (initLexer (92 :: [110, 34]))).lexer = 4 ∧
      [110, 34].get? 0 = some 120 ∧
      ∃ d1 d2, [110, 34].get? 1 = some d1 ∧ [110, 34].get? 2 = some d2 ∧
        isHexDigit d1 = true ∧ isHexDigit d2 = true)) :=
  c6_escape_consumption ⟨true, false, 0, 0, 0⟩ allValid [110, 34] rfl
    (by decide)

/-
Helpers relating `lookahead` to list indexing, and the full specification of
the string-content loop, used for C5.
-/

theorem list_drop_headD (xs : List Nat) (n : Nat) :
    (xs.drop n).headD 0 = (xs.get? n).getD 0 := by
  induction xs generalizing n with
  | nil => cases n <;> rfl
  | cons a t ih =>
    cases n with
    | zero => rfl
    | succ m => exact ih m

theorem lookahead_getD (l : TSLexer) :
    lookahead l = (l.input.get? l.pos).getD 0 :=
  list_drop_headD l.input l.pos

/-- With no NUL byte in the input, a zero lookahead means end of input. -/
theorem lookahead_eof (l : TSLexer) (hnn : (0 : Nat) ∉ l.input)
    (h : lookahead l = 0) : l.input.length ≤ l.pos := by
  by_contra hlt
  push_neg at hlt
  have hg : l.input.get? l.pos = some (l.input.get ⟨l.pos, hlt⟩) :=
    List.get?_eq_get hlt
  rw [lookahead_getD, hg] at h
  simp only [Option.getD_some] at h
  exact hnn (h ▸ List.get_mem l.input l.pos hlt)

/-- A nonzero lookahead is the character stored at the current position. -/
theorem lookahead_some (l : TSLexer) (h : lookahead l ≠ 0) :
    l.input.get? l.pos = some (lookahead l) ∧ l.pos < l.input.length := by
  cases hg : l.input.get? l.pos with
  | none =>
    rw [lookahead_getD, hg] at h
    simp at h
  | some a =>
    have hl : lookahead l = a := by rw [lookahead_getD, hg]; rfl
    obtain ⟨hlt, -⟩ := List.get?_eq_some.mp hg
    exact ⟨by rw [hl], hlt⟩

/-- The content loop does nothing at end of input. -/
theorem stringContentLoop_eof (fuel : Nat) (hc : Bool) (l : TSLexer)
    (h : lookahead l = 0) : stringContentLoop fuel hc l = (hc, l) := by
  cases fuel with
  | zero => rfl
  | succ n => simp [stringContentLoop, h]

/-- Full specification of the `scan_string_content` loop: it preserves the
input and token bookkeeping, commits (via mark_end) only characters that are
not `"`, not `\`, and not the `$` of a `${`, grows the committed end exactly
when it reports content, and stops exactly at end of input or at one of the
stop characters. -/
theorem stringContentLoop_spec :
    ∀ (fuel : Nat) (hc : Bool) (l : TSLexer) (ok : Bool) (lf : TSLexer),
      stringContentLoop fuel hc l = (ok, lf) →
      l.input.length - l.pos < fuel →
      l.markedSet = true → l.marked = l.pos → l.pos ≤ l.input.length →
      (0 : Nat) ∉ l.input →
      lf.input = l.input ∧ lf.tokenStart = l.tokenStart ∧
      lf.markedSet = true ∧ l.marked ≤ lf.marked ∧
      lf.marked ≤ l.input.length ∧
      (hc = true → ok = true) ∧
      (ok = true → hc = true ∨ l.marked < lf.marked) ∧
      (∀ i, l.marked ≤ i → i < lf.marked →
        l.input.get? i ≠ some 34 ∧ l.input.get? i ≠ some 92 ∧
        (l.input.get? i = some 36 → l.input.get? (i + 1) ≠ some 123)) ∧
      (lf.marked = l.input.length ∨ l.input.get? lf.marked = some 34 ∨
       l.input.get? lf.marked = some 92 ∨
       (l.input.get? lf.marked = some 36 ∧
        l.input.get? (lf.marked + 1) = some 123)) := by
  intro fuel
  induction fuel with
  | zero =>
    intro hc l ok lf heq hfuel hms hmp hple hnn
    omega
  | succ n ih =>
    intro hc l ok lf heq hfuel hms hmp hple hnn
    simp only [stringContentLoop] at heq
    split at heq
    · rename_i h0
      injection heq with e1 e2
      subst e1
      subst e2
      have hpos : l.input.length ≤ l.pos := lookahead_eof l hnn h0
      refine ⟨rfl, rfl, hms, le_refl _, by omega, fun h => h,
        fun h => Or.inl h, fun i h1 h2 => by omega, Or.inl (by omega)⟩
    · rename_i h0
      split at heq
      · rename_i h34
        injection heq with e1 e2
        subst e1
        subst e2
        obtain ⟨hg, hlt⟩ := lookahead_some l (by rw [h34]; decide)
        rw [h34] at hg
        refine ⟨rfl, rfl, hms, le_refl _, by omega, fun h => h,
          fun h => Or.inl h, fun i h1 h2 => by omega,
          Or.inr (Or.inl (by rw [hmp]; exact hg))⟩
      · rename_i h34
        split at heq
        · rename_i h92
          injection heq with e1 e2
          subst e1
          subst e2
          obtain ⟨hg, hlt⟩ := lookahead_some l (by rw [h92]; decide)
          rw [h92] at hg
          refine ⟨rfl, rfl, hms, le_refl _, by omega, fun h => h,
            fun h => Or.inl h, fun i h1 h2 => by omega,
            Or.inr (Or.inr (Or.inl (by rw [hmp]; exact hg)))⟩
        · rename_i h92
          split at heq
          · rename_i h36
            split at heq
            · rename_i h123
              injection heq with e1 e2
              subst e1
              subst e2
              obtain ⟨hg, hlt⟩ := lookahead_some l (by rw [h36]; decide)
              rw [h36] at hg
              obtain ⟨hg2, hlt2⟩ :=
                lookahead_some (advance l) (by rw [h123]; decide)
              rw [h123] at hg2
              refine ⟨rfl, rfl, hms, le_refl _,
                by show l.marked ≤ l.input.length; omega, fun h => h,
                fun h => Or.inl h,
                fun i h1 h2 => by
                  have e : (advance l).marked = l.marked := rfl
                  omega,
                Or.inr (Or.inr (Or.inr ⟨by
                  show l.input.get? l.marked = some 36
                  rw [hmp]; exact hg,
                  by
                  show l.input.get? (l.marked + 1) = some 123
                  rw [hmp]; exact hg2⟩))⟩
            · rename_i h123
              obtain ⟨hg, hlt⟩ := lookahead_some l (by rw [h36]; decide)
              rw [h36] at hg
              obtain ⟨i1, i2, i3, i4, i5, i6, i7, i8, i9⟩ :=
                ih true (markEnd (advance l)) ok lf heq (by
                  show l.input.length - (l.pos + 1) < n
                  omega) rfl rfl (by show l.pos + 1 ≤ l.input.length; omega)
                  hnn
              have i4' : l.pos + 1 ≤ lf.marked := i4
              have hnext : l.input.get? (l.pos + 1) ≠ some 123 := by
                intro hne
                apply h123
                rw [lookahead_getD]
                show (l.input.get? (l.pos + 1)).getD 0 = 123
                rw [hne]
                rfl
              refine ⟨i1, i2, i3, by omega, i5, fun _ => i6 rfl,
                fun _ => Or.inr (by omega), ?_, i9⟩
              intro i hi1 hi2
              by_cases hip : i = l.pos
              · subst hip
                exact ⟨by rw [hg]; simp, by rw [hg]; simp,
                  fun _ => hnext⟩
              · have : l.pos + 1 ≤ i := by omega
                exact i8 i this hi2
          · rename_i h36
            obtain ⟨hg, hlt⟩ := lookahead_some l h0
            obtain ⟨i1, i2, i3, i4, i5, i6, i7, i8, i9⟩ :=
              ih true (markEnd (advance l)) ok lf heq (by
                show l.input.length - (l.pos + 1) < n
                omega) rfl rfl (by show l.pos + 1 ≤ l.input.length; omega)
                hnn
            have i4' : l.pos + 1 ≤ lf.marked := i4
            refine ⟨i1, i2, i3, by omega, i5, fun _ => i6 rfl,
              fun _ => Or.inr (by omega), ?_, i9⟩
            intro i hi1 hi2
            by_cases hip : i = l.pos
            · subst hip
              refine ⟨?_, ?_, ?_⟩
              · intro he
                rw [hg] at he
                exact h34 (Option.some.inj he)
              · intro he
                rw [hg] at he
                exact h92 (Option.some.inj he)
              · intro he
                rw [hg] at he
                exact absurd (Option.some.inj he) h36
            · have : l.pos + 1 ≤ i := by omega
              exact i8 i this hi2

/-- The block-comment loop only advances the position: all token bookkeeping
fields are untouched, and if it fails (unterminated comment) it stops at end
of input. -/
theorem blockCommentLoop_spec :
    ∀ (fuel : Nat) (depth : Nat) (l : TSLexer) (ok : Bool) (lf : TSLexer),
      blockCommentLoop fuel depth l = (ok, lf) →
      l.input.length - l.pos < fuel →
      lf.input = l.input ∧ lf.tokenStart = l.tokenStart ∧
      lf.marked = l.marked ∧ lf.markedSet = l.markedSet ∧
      l.pos ≤ lf.pos ∧ (l.pos ≤ l.input.length → lf.pos ≤ l.input.length) ∧
      (ok = false → lookahead lf = 0) := by
  intro fuel
  induction fuel with
  | zero => intro depth l ok lf heq hfuel; omega
  | succ n ih =>
    intro depth l ok lf heq hfuel
    simp only [blockCommentLoop] at heq
    split at heq
    · rename_i hcond
      have hlt : l.pos < l.input.length := (lookahead_some l hcond.2).2
      split at heq
      · rename_i h47
        split at heq
        · rename_i h42
          have hlt2 : l.pos + 1 < l.input.length :=
            (lookahead_some (advance l) (by rw [h42]; decide)).2
          obtain ⟨i1, i2, i3, i4, i5, i6, i7⟩ := ih _ _ _ _ heq (by
            show l.input.length - (l.pos + 1 + 1) < n
            omega)
          have i5' : l.pos + 1 + 1 ≤ lf.pos := i5
          exact ⟨i1, i2, i3, i4, by omega,
            fun _ => i6 (by show l.pos + 1 + 1 ≤ l.input.length; omega), i7⟩
        · rename_i h42
          obtain ⟨i1, i2, i3, i4, i5, i6, i7⟩ := ih _ _ _ _ heq (by
            show l.input.length - (l.pos + 1) < n
            omega)
          have i5' : l.pos + 1 ≤ lf.pos := i5
          exact ⟨i1, i2, i3, i4, by omega,
            fun _ => i6 (by show l.pos + 1 ≤ l.input.length; omega), i7⟩
      · rename_i h47
        split at heq
        · rename_i h42
          split at heq
          · rename_i h47b
            have hlt2 : l.pos + 1 < l.input.length :=
              (lookahead_some (advance l) (by rw [h47b]; decide)).2
            obtain ⟨i1, i2, i3, i4, i5, i6, i7⟩ := ih _ _ _ _ heq (by
              show l.input.length - (l.pos + 1 + 1) < n
              omega)
            have i5' : l.pos + 1 + 1 ≤ lf.pos := i5
            exact ⟨i1, i2, i3, i4, by omega,
              fun _ => i6 (by show l.pos + 1 + 1 ≤ l.input.length; omega), i7⟩
          · rename_i h47b
            obtain ⟨i1, i2, i3, i4, i5, i6, i7⟩ := ih _ _ _ _ heq (by
              show l.input.length - (l.pos + 1) < n
              omega)
            have i5' : l.pos + 1 ≤ lf.pos := i5
            exact ⟨i1, i2, i3, i4, by omega,
              fun _ => i6 (by show l.pos + 1 ≤ l.input.length; omega), i7⟩
        · rename_i h42
          obtain ⟨i1, i2, i3, i4, i5, i6, i7⟩ := ih _ _ _ _ heq (by
            show l.input.length - (l.pos + 1) < n
            omega)
          have i5' : l.pos + 1 ≤ lf.pos := i5
          exact ⟨i1, i2, i3, i4, by omega,
            fun _ => i6 (by show l.pos + 1 ≤ l.input.length; omega), i7⟩
    · rename_i hcond
      injection heq with e1 e2
      subst e2
      refine ⟨rfl, rfl, rfl, rfl, le_refl _, fun h => h, ?_⟩
      intro hok
      by_cases hd : depth = 0
      · subst hd
        rw [hok] at e1
        simp at e1
      · by_contra hla
        exact hcond ⟨Nat.pos_of_ne_zero hd, hla⟩

/-- When `scan_comment` fails, all token bookkeeping is untouched; the lexer
either did not move, consumed exactly a `/` that did not open a block
comment, or ran into end of input inside an unterminated block comment. -/
theorem scan_comment_false_spec (l : TSLexer) (h : (scan_comment l).1 = false)
    (hple : l.pos ≤ l.input.length) :
    (scan_comment l).2.input = l.input ∧
    (scan_comment l).2.tokenStart = l.tokenStart ∧
    (scan_comment l).2.marked = l.marked ∧
    (scan_comment l).2.markedSet = l.markedSet ∧
    (scan_comment l).2.pos ≤ l.input.length ∧
    ((scan_comment l).2 = l ∨
     (lookahead l = 47 ∧ (scan_comment l).2 = advance l) ∨
     lookahead (scan_comment l).2 = 0) := by
  by_cases h35 : lookahead l = 35
  · have : (scan_comment l).1 = true := by
      unfold scan_comment
      rw [if_pos h35]
    rw [this] at h
    exact absurd h (by decide)
  · by_cases h47 : lookahead l = 47
    · by_cases h42 : lookahead (advance l) = 42
      · have hsc : scan_comment l =
            blockCommentLoop (remFuel l) 1 (advance (advance l)) := by
          unfold scan_comment
          rw [if_neg h35, if_pos h47, if_pos h42]
        have hlt : l.pos < l.input.length :=
          (lookahead_some l (by rw [h47]; decide)).2
        have hlt2 : l.pos + 1 < l.input.length :=
          (lookahead_some (advance l) (by rw [h42]; decide)).2
        obtain ⟨i1, i2, i3, i4, i5, i6, i7⟩ :=
          blockCommentLoop_spec (remFuel l) 1 (advance (advance l))
            (scan_comment l).1 (scan_comment l).2
            (by rw [← hsc])
            (by show l.input.length - (l.pos + 1 + 1) < remFuel l
                unfold remFuel
                omega)
        exact ⟨i1, i2, i3, i4,
          i6 (by show l.pos + 1 + 1 ≤ l.input.length; omega),
          Or.inr (Or.inr (i7 h))⟩
      · have hsc : scan_comment l = (false, advance l) := by
          unfold scan_comment
          rw [if_neg h35, if_pos h47, if_neg h42]
        have hlt : l.pos < l.input.length :=
          (lookahead_some l (by rw [h47]; decide)).2
        rw [hsc]
        exact ⟨rfl, rfl, rfl, rfl, by show l.pos + 1 ≤ l.input.length; omega,
          Or.inr (Or.inl ⟨h47, rfl⟩)⟩
    · have hsc : scan_comment l = (false, l) := scan_comment_skip l h35 h47
      rw [hsc]
      exact ⟨rfl, rfl, rfl, rfl, hple, Or.inl rfl⟩

theorem tokenEnd_marked (l : TSLexer) (h : l.markedSet = true) :
    tokenEnd l = l.marked := by
  unfold tokenEnd
  rw [h]
  rfl

/-- From the escape-sequence check on (with escape not admissible): if the
call produces a string-content token, the committed span satisfies the
content-token properties. -/
theorem c5_content (s : Scanner) (v : TokenType → Bool) (l2 : TSLexer)
    (hve : v TokenType.ESCAPE_SEQUENCE = false)
    (hnn : (0 : Nat) ∉ l2.input) (hts : l2.tokenStart = 0)
    (hple : l2.pos ≤ l2.input.length)
    (hsafe : ∀ i, i < l2.pos →
      l2.input.get? i ≠ some 34 ∧ l2.input.get? i ≠ some 92 ∧
      (l2.input.get? i = some 36 → l2.input.get? (i + 1) ≠ some 123))
    (h : (stringEscapeStep s v l2).result = some TokenType.STRING_CONTENT) :
    ContentTokenOK l2.input (stringEscapeStep s v l2).lexer := by
  have he : stringEscapeStep s v l2 = stringContentStep s v l2 := by
    unfold stringEscapeStep
    rw [if_neg (by rw [hve]; decide)]
  rw [he] at h ⊢
  by_cases hvc : v TokenType.STRING_CONTENT = true
  · cases hok : (scan_string_content l2).1 with
    | false =>
      have he2 : stringContentStep s v l2 =
          indentedStep s v (scan_string_content l2).2 := by
        unfold stringContentStep
        rw [if_pos hvc, if_neg (by rw [hok]; decide)]
      rw [he2] at h
      exact absurd h (indentedStep_ne _ _ _ _ (by decide) (by decide)
        (by decide) (by decide))
    | true =>
      have he2 : stringContentStep s v l2 =
          ⟨some TokenType.STRING_CONTENT, s, (scan_string_content l2).2⟩ := by
        unfold stringContentStep
        rw [if_pos hvc, if_pos hok]
      rw [he2]
      obtain ⟨i1, i2, i3, i4, i5, i6, i7, i8, i9⟩ :=
        stringContentLoop_spec (remFuel l2) false (markEnd l2)
          (scan_string_content l2).1 (scan_string_content l2).2
          rfl
          (by show l2.input.length - l2.pos < l2.input.length + 1 - l2.pos
              omega)
          rfl rfl (by show l2.pos ≤ l2.input.length; exact hple) hnn
      have i2' : (scan_string_content l2).2.tokenStart = l2.tokenStart := i2
      have i4' : l2.pos ≤ (scan_string_content l2).2.marked := i4
      have i5' : (scan_string_content l2).2.marked ≤ l2.input.length := i5
      have hmk : tokenEnd (scan_string_content l2).2 =
          (scan_string_content l2).2.marked := tokenEnd_marked _ i3
      have hgrow : l2.pos < (scan_string_content l2).2.marked := by
        rcases i7 hok with hcontra | hlt
        · exact absurd hcontra (by decide)
        · exact hlt
      refine ⟨i2'.trans hts, ?_, ?_, ?_, ?_⟩
      · rw [hmk]
        omega
      · rw [hmk]
        exact i5'
      · intro i hi
        rw [hmk] at hi
        by_cases hip : i < l2.pos
        · exact hsafe i hip
        · exact i8 i (by show l2.pos ≤ i; omega) hi
      · rw [hmk]
        exact i9
  · have he2 : stringContentStep s v l2 = indentedStep s v l2 := by
      unfold stringContentStep
      rw [if_neg hvc]
    rw [he2] at h
    exact absurd h (indentedStep_ne _ _ _ _ (by decide) (by decide)
      (by decide) (by decide))

/-- From the string-entry stage on, inside a plain string with escape not
admissible: a produced string-content token satisfies the content-token
properties (the interpolation-start check may consume a `$` not followed by
`{`, which is itself legal content). -/
theorem c5_core (s : Scanner) (v : TokenType → Bool) (l1 : TSLexer)
    (hs : s.in_string = true)
    (hve : v TokenType.ESCAPE_SEQUENCE = false)
    (hnn : (0 : Nat) ∉ l1.input) (hts : l1.tokenStart = 0)
    (hple : l1.pos ≤ l1.input.length)
    (hsafe : ∀ i, i < l1.pos →
      l1.input.get? i ≠ some 34 ∧ l1.input.get? i ≠ some 92 ∧
      (l1.input.get? i = some 36 → l1.input.get? (i + 1) ≠ some 123))
    (h : (entryStep s v l1).result = some TokenType.STRING_CONTENT) :
    ContentTokenOK l1.input (entryStep s v l1).lexer := by
  have he1 : entryStep s v l1 = stringStep s v l1 := by
    unfold entryStep
    rw [if_neg (by rw [hs]; rintro ⟨hx, -⟩; exact absurd hx (by decide))]
  rw [he1] at h ⊢
  by_cases hend : v TokenType.STRING_END = true ∧ lookahead l1 = 34
  · have he2 : stringStep s v l1 =
        ⟨some TokenType.STRING_END, { s with in_string := false },
         advance l1⟩ := by
      unfold stringStep
      rw [if_pos hs, if_pos hend]
    rw [he2] at h
    exact absurd (Option.some.inj h) (by decide)
  · have he2 : stringStep s v l1 = stringInterpStep s v l1 := by
      unfold stringStep
      rw [if_pos hs, if_neg hend]
    rw [he2] at h ⊢
    by_cases hint : v TokenType.INTERPOLATION_START = true ∧ lookahead l1 = 36
    · by_cases h123 : lookahead (advance l1) = 123
      · have he3 : stringInterpStep s v l1 =
            ⟨some TokenType.INTERPOLATION_START,
             { s with interpolation_depth := s.interpolation_depth + 1,
                      brace_depth := 1 },
             advance (advance l1)⟩ := by
          unfold stringInterpStep
          rw [if_pos hint, if_pos h123]
        rw [he3] at h
        exact absurd (Option.some.inj h) (by decide)
      · have he3 : stringInterpStep s v l1 =
            stringEscapeStep s v (advance l1) := by
          unfold stringInterpStep
          rw [if_pos hint, if_neg h123]
        rw [he3] at h ⊢
        obtain ⟨hg36, hlt36⟩ := lookahead_some l1 (by rw [hint.2]; decide)
        rw [hint.2] at hg36
        have hnext : l1.input.get? (l1.pos + 1) ≠ some 123 := by
          intro hne
          apply h123
          rw [lookahead_getD]
          show (l1.input.get? (l1.pos + 1)).getD 0 = 123
          rw [hne]
          rfl
        exact c5_content s v (advance l1) hve hnn hts
          (by show l1.pos + 1 ≤ l1.input.length; omega)
          (by
            intro i hi
            by_cases hip : i = l1.pos
            · subst hip
              refine ⟨?_, ?_, fun _ => hnext⟩
              · show l1.input.get? l1.pos ≠ some 34
                rw [hg36]
                simp
              · show l1.input.get? l1.pos ≠ some 92
                rw [hg36]
                simp
            · have : i < l1.pos := by
                have : i < l1.pos + 1 := hi
                omega
              exact hsafe i this) h
    · have he3 : stringInterpStep s v l1 = stringEscapeStep s v l1 := by
        unfold stringInterpStep
        rw [if_neg hint]
      rw [he3] at h ⊢
      exact c5_content s v l1 hve hnn hts hple hsafe h

/-- C5 (amended): for every input without NUL bytes and every admissible-kind
set in which escape-sequence is NOT admissible, when a scan call inside a
plain string produces a string-content token, the token's consumed span is a
non-empty maximal run of characters none of which is a double quote or a
backslash and which contains no `${` occurrence (a bare `$` not followed by
`{` being ordinary content); maximality: the character after the span, if
any, is `"`, `\`, or the start of `${`.  (With escape-sequence admissible a
failed escape attempt can leave a consumed backslash inside the content
token, see the counterexample.) -/
theorem c5_string_content (s : Scanner) (v : TokenType → Bool)
    (input : List Nat) (hs : s.in_string = true)
    (hve : v TokenType.ESCAPE_SEQUENCE = false)
    (hnn : (0 : Nat) ∉ input)
    (h : (scan s v (initLexer input)).result = some TokenType.STRING_CONTENT) :
    ContentTokenOK input (scan s v (initLexer input)).lexer := by
  have hA : scan s v (initLexer input) = commentStep s v (initLexer input) := by
    unfold scan
    rw [if_neg (by rw [hs]; rintro ⟨hx, -⟩; exact absurd hx (by decide))]
  rw [hA] at h ⊢
  by_cases hvc : v TokenType.COMMENT = true
  · cases hok : (scan_comment (initLexer input)).1 with
    | true =>
      have hB : commentStep s v (initLexer input) =
          ⟨some TokenType.COMMENT, s, (scan_comment (initLexer input)).2⟩ := by
        unfold commentStep
        rw [if_pos hvc, if_pos hok]
      rw [hB] at h
      exact absurd (Option.some.inj h) (by decide)
    | false =>
      have hB : commentStep s v (initLexer input) =
          entryStep s v (scan_comment (initLexer input)).2 := by
        unfold commentStep
        rw [if_pos hvc, if_neg (by rw [hok]; decide)]
      rw [hB] at h ⊢
      obtain ⟨j1, j2, j3, j4, j5, j6⟩ :=
        scan_comment_false_spec (initLexer input) hok
          (by show 0 ≤ input.length; omega)
      rcases j6 with hj | ⟨hj47, hjeq⟩ | hj0
      · rw [hj] at h ⊢
        exact c5_core s v (initLexer input) hs hve hnn rfl
          (by show 0 ≤ input.length; omega)
          (fun i hi => absurd (show i < 0 from hi) (by omega)) h
      · rw [hjeq] at h ⊢
        obtain ⟨hg47, hlt47⟩ := lookahead_some (initLexer input)
          (by rw [hj47]; decide)
        rw [hj47] at hg47
        have hg47' : input.get? 0 = some 47 := hg47
        have hlt47' : (0 : Nat) < input.length := hlt47
        refine c5_core s v (advance (initLexer input)) hs hve hnn rfl
          (by show 0 + 1 ≤ input.length; omega) ?_ h
        intro i hi
        have hi0 : i = 0 := by
          have : i < 0 + 1 := hi
          omega
        subst hi0
        refine ⟨?_, ?_, ?_⟩
        · show input.get? 0 ≠ some 34
          rw [hg47']
          simp
        · show input.get? 0 ≠ some 92
          rw [hg47']
          simp
        · intro he
          have he' : input.get? 0 = some 36 := he
          rw [hg47'] at he'
          exact absurd (Option.some.inj he') (by decide)
      · exfalso
        set lc := (scan_comment (initLexer input)).2 with hlc
        have e1 : entryStep s v lc = stringStep s v lc := by
          unfold entryStep
          rw [if_neg (by rw [hs]; rintro ⟨hx, -⟩; exact absurd hx (by decide))]
        have e2 : stringStep s v lc = stringInterpStep s v lc := by
          unfold stringStep
          rw [if_pos hs, if_neg (by
            rintro ⟨-, hx⟩
            rw [hj0] at hx
            exact absurd hx (by decide))]
        have e3 : stringInterpStep s v lc = stringEscapeStep s v lc := by
          unfold stringInterpStep
          rw [if_neg (by
            rintro ⟨-, hx⟩
            rw [hj0] at hx
            exact absurd hx (by decide))]
        have e4 : stringEscapeStep s v lc = stringContentStep s v lc := by
          unfold stringEscapeStep
          rw [if_neg (by rw [hve]; decide)]
        rw [e1, e2, e3, e4] at h
        have hsc0 : (scan_string_content lc).1 = false := by
          unfold scan_string_content
          rw [stringContentLoop_eof _ _ _
            (show lookahead (markEnd lc) = 0 from hj0)]
        by_cases hvc2 : v TokenType.STRING_CONTENT = true
        · have e5 : stringContentStep s v lc =
              indentedStep s v (scan_string_content lc).2 := by
            unfold stringContentStep
            rw [if_pos hvc2, if_neg (by rw [hsc0]; decide)]
          rw [e5] at h
          exact (indentedStep_ne _ _ _ _ (by decide) (by decide) (by decide)
            (by decide)) h
        · have e5 : stringContentStep s v lc = indentedStep s v lc := by
            unfold stringContentStep
            rw [if_neg hvc2]
          rw [e5] at h
          exact (indentedStep_ne _ _ _ _ (by decide) (by decide) (by decide)
            (by decide)) h
  · have hB : commentStep s v (initLexer input) =
        entryStep s v (initLexer input) := by
      unfold commentStep
      rw [if_neg hvc]
    rw [hB] at h ⊢
    exact c5_core s v (initLexer input) hs hve hnn rfl
      (by show 0 ≤ input.length; omega)
      (fun i hi => absurd (show i < 0 from hi) (by omega)) h

/-- Witness for `c5_string_content`: inside a plain string, with only
string-content admissible, input `hi"` yields a content token whose span
satisfies the content properties. -/
theorem c5_string_content_witness :
    ContentTokenOK [104, 105, 34]
      (scan ⟨true, false, 0, 0, 0⟩
        (fun k => k == TokenType.STRING_CONTENT)
        (initLexer [104, 105, 34])).lexer :=
  c5_string_content ⟨true, false, 0, 0, 0⟩
    (fun k => k == TokenType.STRING_CONTENT) [104, 105, 34]
    rfl (by decide) (by decide) (by decide)
